import Mathlib

/-!
Verification development for the whoop-mcp-server sync/cache engine.

Shallow embedding conventions used throughout:
* ISO-8601 instants (TEXT columns `start_time`, `created_at`, `last_sync_at`
  and the JS `Date.now()` values) are modelled as integers (`ℤ`, milliseconds):
  for fixed-format ISO strings lexicographic order coincides with
  chronological order, so an integer timeline is a faithful abstraction.
* Date-only strings (`YYYY-MM-DD`, produced by `toISOString().split('T')[0]`
  and stored in `sync_state`) are kept as `String` with SQLite's string
  comparison, exactly as the source compares them.
* JS numbers / SQLite REAL values are modelled as `ℚ` (every finite double is
  a rational and all arithmetic performed on them here is exact).
* SQL `NULL`-able columns are `Option` fields.  A SQLite table is a `List` of
  rows; `INSERT OR REPLACE` deletes the conflicting row and appends the new
  one; `ORDER BY ... DESC` is an explicit descending sort.
* The bookkeeping column `synced_at TEXT DEFAULT CURRENT_TIMESTAMP` is never
  read by any query in the source and is omitted from the row models.
-/

/-- One day in milliseconds (JS timeline). -/
def dayMs : ℤ := 86400000

/-- One hour in milliseconds. -/
def hourMs : ℤ := 3600000

/-- SQLite `DATE(t)`: truncation of an instant to its (floor) day number. -/
def dateOf (t : ℤ) : ℤ := Int.ediv t dayMs

/-- SQLite `ROUND(x, 2)`. -/
def sqlRound2 (q : ℚ) : ℚ := ((round (q * 100) : ℤ) : ℚ) / 100

/-- SQLite `ROUND(x, 0)`. -/
def sqlRound0 (q : ℚ) : ℚ := ((round q : ℤ) : ℚ)

/-! ## Upstream API record types (src/types.ts) -/

/-- Model of `WhoopCycle.score` (types.ts). -/
structure CycleScore where
  strain : ℚ
  kilojoule : ℚ
  average_heart_rate : ℤ
  max_heart_rate : ℤ
  deriving DecidableEq

/-- Upstream cycle record (types.ts `WhoopCycle`). -/
structure WhoopCycle where
  id : ℤ
  user_id : ℤ
  start : ℤ
  «end» : Option ℤ
  timezone_offset : String
  score_state : String
  score : Option CycleScore
  deriving DecidableEq

/-- Model of `WhoopRecovery.score` (types.ts); `spo2_percentage` and
`skin_temp_celsius` are optional even inside a present score. -/
structure RecoveryScore where
  user_calibrating : Bool
  recovery_score : ℤ
  resting_heart_rate : ℤ
  hrv_rmssd_milli : ℚ
  spo2_percentage : Option ℚ
  skin_temp_celsius : Option ℚ
  deriving DecidableEq

/-- Upstream recovery record (types.ts `WhoopRecovery`). -/
structure WhoopRecovery where
  cycle_id : ℤ
  sleep_id : String
  user_id : ℤ
  created_at : ℤ
  updated_at : ℤ
  score_state : String
  score : Option RecoveryScore
  deriving DecidableEq

/-- Model of `WhoopSleep.score.stage_summary` (types.ts). -/
structure StageSummary where
  total_in_bed_time_milli : ℤ
  total_awake_time_milli : ℤ
  total_no_data_time_milli : ℤ
  total_light_sleep_time_milli : ℤ
  total_slow_wave_sleep_time_milli : ℤ
  total_rem_sleep_time_milli : ℤ
  sleep_cycle_count : ℤ
  disturbance_count : ℤ
  deriving DecidableEq

/-- Model of `WhoopSleep.score.sleep_needed` (types.ts). -/
structure SleepNeeded where
  baseline_milli : ℤ
  need_from_sleep_debt_milli : ℤ
  need_from_recent_strain_milli : ℤ
  need_from_recent_nap_milli : ℤ
  deriving DecidableEq

/-- Model of `WhoopSleep.score` (types.ts). -/
structure SleepScore where
  stage_summary : StageSummary
  sleep_needed : SleepNeeded
  respiratory_rate : ℚ
  sleep_performance_percentage : ℚ
  sleep_consistency_percentage : ℚ
  sleep_efficiency_percentage : ℚ
  deriving DecidableEq

/-- Upstream sleep record (types.ts `WhoopSleep`). -/
structure WhoopSleep where
  id : String
  user_id : ℤ
  created_at : ℤ
  updated_at : ℤ
  start : ℤ
  «end» : ℤ
  timezone_offset : String
  nap : Bool
  score_state : String
  score : Option SleepScore
  deriving DecidableEq

/-- Model of `WhoopWorkout.score.zone_duration` (types.ts). -/
structure ZoneDuration where
  zone_zero_milli : ℤ
  zone_one_milli : ℤ
  zone_two_milli : ℤ
  zone_three_milli : ℤ
  zone_four_milli : ℤ
  zone_five_milli : ℤ
  deriving DecidableEq

/-- Model of `WhoopWorkout.score` (types.ts). -/
structure WorkoutScore where
  strain : ℚ
  average_heart_rate : ℤ
  max_heart_rate : ℤ
  kilojoule : ℚ
  percent_recorded : ℚ
  zone_duration : ZoneDuration
  deriving DecidableEq

/-- Upstream workout record (types.ts `WhoopWorkout`). -/
structure WhoopWorkout where
  id : String
  user_id : ℤ
  created_at : ℤ
  updated_at : ℤ
  start : ℤ
  «end» : ℤ
  timezone_offset : String
  sport_id : ℤ
  score_state : String
  score : Option WorkoutScore
  deriving DecidableEq

/-! ## Database row types (`cycles`, `recovery`, `sleep`, `workouts` tables) -/

/-- Row of the `cycles` table (database.ts schema, minus `synced_at`). -/
structure CycleRow where
  id : ℤ
  user_id : ℤ
  start_time : ℤ
  end_time : Option ℤ
  score_state : String
  strain : Option ℚ
  kilojoule : Option ℚ
  avg_hr : Option ℤ
  max_hr : Option ℤ
  deriving DecidableEq

/-- Row of the `recovery` table (primary key `id` is the cycle id). -/
structure RecoveryRow where
  id : ℤ
  user_id : ℤ
  sleep_id : String
  created_at : ℤ
  score_state : String
  recovery_score : Option ℤ
  resting_hr : Option ℤ
  hrv_rmssd : Option ℚ
  spo2 : Option ℚ
  skin_temp : Option ℚ
  deriving DecidableEq

/-- Row of the `sleep` table.  `cycle_id` exists in the schema but the
INSERT in `upsertSleeps` never writes it, so inserted rows carry `none`.
`is_nap` is the SQLite 0/1 integer. -/
structure SleepRow where
  id : String
  user_id : ℤ
  cycle_id : Option ℤ
  start_time : ℤ
  end_time : ℤ
  is_nap : ℤ
  score_state : String
  total_in_bed_milli : Option ℤ
  total_awake_milli : Option ℤ
  total_light_milli : Option ℤ
  total_deep_milli : Option ℤ
  total_rem_milli : Option ℤ
  sleep_performance : Option ℚ
  sleep_efficiency : Option ℚ
  sleep_consistency : Option ℚ
  respiratory_rate : Option ℚ
  sleep_needed_baseline_milli : Option ℤ
  sleep_needed_debt_milli : Option ℤ
  sleep_needed_strain_milli : Option ℤ
  deriving DecidableEq

/-- Row of the `workouts` table. -/
structure WorkoutRow where
  id : String
  user_id : ℤ
  sport_id : ℤ
  start_time : ℤ
  end_time : ℤ
  score_state : String
  strain : Option ℚ
  avg_hr : Option ℤ
  max_hr : Option ℤ
  kilojoule : Option ℚ
  zone_zero_milli : Option ℤ
  zone_one_milli : Option ℤ
  zone_two_milli : Option ℤ
  zone_three_milli : Option ℤ
  zone_four_milli : Option ℤ
  zone_five_milli : Option ℤ
  deriving DecidableEq

/-- The parameter list of the `INSERT OR REPLACE INTO cycles` statement in
`upsertCycles`: every `c.score?.f ?? null` becomes an `Option.map`. -/
def cycleRow (c : WhoopCycle) : CycleRow where
  id := c.id
  user_id := c.user_id
  start_time := c.start
  end_time := c.«end»
  score_state := c.score_state
  strain := c.score.map (fun s => s.strain)
  kilojoule := c.score.map (fun s => s.kilojoule)
  avg_hr := c.score.map (fun s => s.average_heart_rate)
  max_hr := c.score.map (fun s => s.max_heart_rate)

/-- The parameter list of the `INSERT OR REPLACE INTO recovery` statement in
`upsertRecoveries` (keyed by `r.cycle_id`). -/
def recoveryRow (r : WhoopRecovery) : RecoveryRow where
  id := r.cycle_id
  user_id := r.user_id
  sleep_id := r.sleep_id
  created_at := r.created_at
  score_state := r.score_state
  recovery_score := r.score.map (fun s => s.recovery_score)
  resting_hr := r.score.map (fun s => s.resting_heart_rate)
  hrv_rmssd := r.score.map (fun s => s.hrv_rmssd_milli)
  spo2 := r.score.bind (fun s => s.spo2_percentage)
  skin_temp := r.score.bind (fun s => s.skin_temp_celsius)

/-- The parameter list of the `INSERT OR REPLACE INTO sleep` statement in
`upsertSleeps` (`s.nap ? 1 : 0` for `is_nap`; `cycle_id` is not inserted). -/
def sleepRow (s : WhoopSleep) : SleepRow where
  id := s.id
  user_id := s.user_id
  cycle_id := none
  start_time := s.start
  end_time := s.«end»
  is_nap := if s.nap then 1 else 0
  score_state := s.score_state
  total_in_bed_milli := s.score.map (fun sc => sc.stage_summary.total_in_bed_time_milli)
  total_awake_milli := s.score.map (fun sc => sc.stage_summary.total_awake_time_milli)
  total_light_milli := s.score.map (fun sc => sc.stage_summary.total_light_sleep_time_milli)
  total_deep_milli := s.score.map (fun sc => sc.stage_summary.total_slow_wave_sleep_time_milli)
  total_rem_milli := s.score.map (fun sc => sc.stage_summary.total_rem_sleep_time_milli)
  sleep_performance := s.score.map (fun sc => sc.sleep_performance_percentage)
  sleep_efficiency := s.score.map (fun sc => sc.sleep_efficiency_percentage)
  sleep_consistency := s.score.map (fun sc => sc.sleep_consistency_percentage)
  respiratory_rate := s.score.map (fun sc => sc.respiratory_rate)
  sleep_needed_baseline_milli := s.score.map (fun sc => sc.sleep_needed.baseline_milli)
  sleep_needed_debt_milli := s.score.map (fun sc => sc.sleep_needed.need_from_sleep_debt_milli)
  sleep_needed_strain_milli := s.score.map (fun sc => sc.sleep_needed.need_from_recent_strain_milli)

/-- The parameter list of the `INSERT OR REPLACE INTO workouts` statement in
`upsertWorkouts`. -/
def workoutRow (w : WhoopWorkout) : WorkoutRow where
  id := w.id
  user_id := w.user_id
  sport_id := w.sport_id
  start_time := w.start
  end_time := w.«end»
  score_state := w.score_state
  strain := w.score.map (fun s => s.strain)
  avg_hr := w.score.map (fun s => s.average_heart_rate)
  max_hr := w.score.map (fun s => s.max_heart_rate)
  kilojoule := w.score.map (fun s => s.kilojoule)
  zone_zero_milli := w.score.map (fun s => s.zone_duration.zone_zero_milli)
  zone_one_milli := w.score.map (fun s => s.zone_duration.zone_one_milli)
  zone_two_milli := w.score.map (fun s => s.zone_duration.zone_two_milli)
  zone_three_milli := w.score.map (fun s => s.zone_duration.zone_three_milli)
  zone_four_milli := w.score.map (fun s => s.zone_duration.zone_four_milli)
  zone_five_milli := w.score.map (fun s => s.zone_duration.zone_five_milli)

/-! ## `INSERT OR REPLACE` semantics -/

/-- One `INSERT OR REPLACE` into a table keyed by `key`: SQLite deletes any
row whose primary key conflicts and inserts the new row. -/
def upsertRow {ρ κ : Type} [DecidableEq κ] (key : ρ → κ) (tbl : List ρ) (r : ρ) : List ρ :=
  tbl.filter (fun x => decide (key x ≠ key r)) ++ [r]

/-- A whole upsert batch: the transaction in each `upsert*` method runs the
prepared statement once per record, in order. -/
def upsertBatch {ρ κ : Type} [DecidableEq κ] (key : ρ → κ) (tbl : List ρ) (rs : List ρ) : List ρ :=
  rs.foldl (upsertRow key) tbl

/-! ## Sync state (`sync_state` singleton row) -/

/-- The `sync_state` singleton row; the schema initialises it with all
three columns NULL (`INSERT OR IGNORE INTO sync_state (id) VALUES (1)`).
`lastSyncAt` is the instant written by SQL `CURRENT_TIMESTAMP`. -/
structure SyncState where
  lastSyncAt : Option ℤ
  oldestDate : Option String
  newestDate : Option String
  deriving DecidableEq

/-- The freshly initialised `sync_state` row. -/
def emptySyncState : SyncState := ⟨none, none, none⟩

/-- Model of `CASE WHEN oldest_synced_date IS NULL OR ? < oldest_synced_date THEN ?
ELSE oldest_synced_date END` (the trailing COALESCE is redundant: the CASE
never yields NULL). -/
def mergeOldest (cur : Option String) (o : String) : String :=
  match cur with
  | none => o
  | some c => if o < c then o else c

/-- Model of `CASE WHEN newest_synced_date IS NULL OR ? > newest_synced_date THEN ?
ELSE newest_synced_date END`. -/
def mergeNewest (cur : Option String) (n : String) : String :=
  match cur with
  | none => n
  | some c => if c < n then n else c

/-- Model of `WhoopDatabase.updateSyncState(oldestDate, newestDate)`; `now` is the
value of SQL `CURRENT_TIMESTAMP` at the call. -/
def updateSyncState (now : ℤ) (oldestDate newestDate : String) (st : SyncState) : SyncState where
  lastSyncAt := some now
  oldestDate := some (mergeOldest st.oldestDate oldestDate)
  newestDate := some (mergeNewest st.newestDate newestDate)

/-! ## The database (`WhoopDatabase`) -/

/-- The four record tables plus the sync-state singleton. -/
structure WhoopDb where
  cycles : List CycleRow
  recovery : List RecoveryRow
  sleep : List SleepRow
  workouts : List WorkoutRow
  syncState : SyncState
  deriving DecidableEq

/-- A database with empty tables and freshly initialised sync state. -/
def emptyDb : WhoopDb := ⟨[], [], [], [], emptySyncState⟩

/-- Model of `WhoopDatabase.upsertCycles` (table level): one `INSERT OR REPLACE`
per record, keyed by the cycle id. -/
def upsertCycles (tbl : List CycleRow) (cs : List WhoopCycle) : List CycleRow :=
  upsertBatch (fun r => r.id) tbl (cs.map cycleRow)

/-- Model of `WhoopDatabase.upsertRecoveries` (table level), keyed by `r.cycle_id`. -/
def upsertRecoveries (tbl : List RecoveryRow) (rs : List WhoopRecovery) : List RecoveryRow :=
  upsertBatch (fun r => r.id) tbl (rs.map recoveryRow)

/-- Model of `WhoopDatabase.upsertSleeps` (table level), keyed by the sleep string id. -/
def upsertSleeps (tbl : List SleepRow) (ss : List WhoopSleep) : List SleepRow :=
  upsertBatch (fun r => r.id) tbl (ss.map sleepRow)

/-- Model of `WhoopDatabase.upsertWorkouts` (table level), keyed by the workout
string id. -/
def upsertWorkouts (tbl : List WorkoutRow) (ws : List WhoopWorkout) : List WorkoutRow :=
  upsertBatch (fun r => r.id) tbl (ws.map workoutRow)

/-! ## `ORDER BY ... DESC` -/

/-- Insert into a list that is sorted descending by `key`. -/
def insertDescBy {α : Type} (key : α → ℤ) (x : α) : List α → List α
  | [] => [x]
  | y :: ys => if key y ≤ key x then x :: y :: ys else y :: insertDescBy key x ys

/-- Model of `ORDER BY key DESC`: insertion sort, descending by `key`. -/
def sortDescBy {α : Type} (key : α → ℤ) (l : List α) : List α :=
  l.foldr (insertDescBy key) []

/-! ## Trend queries -/

/-- Output row of `getRecoveryTrends` (`SELECT DATE(created_at) as date,
recovery_score, hrv_rmssd as hrv, resting_hr as rhr`). -/
structure RecoveryTrendRow where
  date : ℤ
  recovery_score : Option ℤ
  hrv : Option ℚ
  rhr : Option ℤ
  deriving DecidableEq

/-- Output row of `getSleepTrends`. -/
structure SleepTrendRow where
  date : ℤ
  total_sleep_hours : Option ℚ
  performance : Option ℚ
  efficiency : Option ℚ
  deriving DecidableEq

/-- Output row of `getStrainTrends`. -/
structure StrainTrendRow where
  date : ℤ
  strain : Option ℚ
  calories : Option ℚ
  deriving DecidableEq

/-- The window cutoff `DATE('now', '-' || days || ' days')`, at the day
granularity of the integer timeline. -/
def trendCutoff (now days : ℤ) : ℤ := now - days * dayMs

/-- Model of `WhoopDatabase.getRecoveryTrends`:
`WHERE recovery_score IS NOT NULL AND created_at >= DATE('now','-N days')
ORDER BY created_at DESC`.  Note the WHERE clause has no upper bound. -/
def getRecoveryTrends (now days : ℤ) (tbl : List RecoveryRow) : List RecoveryTrendRow :=
  (sortDescBy (fun r => r.created_at)
      (tbl.filter (fun r =>
        r.recovery_score.isSome && decide (trendCutoff now days ≤ r.created_at)))).map
    (fun r => ⟨dateOf r.created_at, r.recovery_score, r.hrv_rmssd, r.resting_hr⟩)

/-- Model of `ROUND((total_in_bed_milli - total_awake_milli) / 3600000.0, 2)`:
SQL arithmetic on NULL yields NULL. -/
def sleepHours (inBed awake : Option ℤ) : Option ℚ :=
  match inBed, awake with
  | some i, some a => some (sqlRound2 (((i - a : ℤ) : ℚ) / 3600000))
  | _, _ => none

/-- Model of `WhoopDatabase.getSleepTrends`:
`WHERE is_nap = 0 AND sleep_performance IS NOT NULL AND start_time >=
DATE('now','-N days') ORDER BY start_time DESC`. -/
def getSleepTrends (now days : ℤ) (tbl : List SleepRow) : List SleepTrendRow :=
  (sortDescBy (fun r => r.start_time)
      (tbl.filter (fun r =>
        decide (r.is_nap = 0) && r.sleep_performance.isSome &&
          decide (trendCutoff now days ≤ r.start_time)))).map
    (fun r => ⟨dateOf r.start_time, sleepHours r.total_in_bed_milli r.total_awake_milli,
      r.sleep_performance, r.sleep_efficiency⟩)

/-- Model of `WhoopDatabase.getStrainTrends`:
`WHERE strain IS NOT NULL AND start_time >= DATE('now','-N days')
ORDER BY start_time DESC`; `calories = ROUND(kilojoule / 4.184, 0)`. -/
def getStrainTrends (now days : ℤ) (tbl : List CycleRow) : List StrainTrendRow :=
  (sortDescBy (fun r => r.start_time)
      (tbl.filter (fun r =>
        r.strain.isSome && decide (trendCutoff now days ≤ r.start_time)))).map
    (fun r => ⟨dateOf r.start_time, r.strain,
      r.kilojoule.map (fun k => sqlRound0 (k / (4184 / 1000)))⟩)

/-! ## Sync engine (`WhoopSync`) -/

/-- Per-kind record counts returned by `syncDays`. -/
structure SyncStats where
  cycles : ℤ
  recoveries : ℤ
  sleeps : ℤ
  workouts : ℤ
  deriving DecidableEq

/-- The environment a sync runs against: the Gateway's four paginated
`getAll*` fetchers (each taking the `start` and `end` instants of the
window) and the date-only rendering `toISOString().split('T')[0]` used for
the sync-state boundaries. -/
structure SyncEnv where
  getAllCycles : ℤ → ℤ → List WhoopCycle
  getAllRecoveries : ℤ → ℤ → List WhoopRecovery
  getAllSleeps : ℤ → ℤ → List WhoopSleep
  getAllWorkouts : ℤ → ℤ → List WhoopWorkout
  isoDate : ℤ → String

/-- Result of one `syncDays` call: the updated store, the per-kind counts,
and the `[start, end]` window that was fetched. -/
structure SyncDaysOut where
  db : WhoopDb
  stats : SyncStats
  window : ℤ × ℤ

/-- Model of `WhoopSync.syncDays(days)`: fetch the four resources over
`[now - days, now]`, upsert each non-empty result, then widen the
sync-state with the date-only window boundaries. -/
def syncDays (env : SyncEnv) (now : ℤ) (days : ℤ) (db : WhoopDb) : SyncDaysOut :=
  let start := now - days * dayMs
  let cycles := env.getAllCycles start now
  let recoveries := env.getAllRecoveries start now
  let sleeps := env.getAllSleeps start now
  let workouts := env.getAllWorkouts start now
  { db :=
      { cycles := if cycles.length > 0 then upsertCycles db.cycles cycles else db.cycles
        recovery := if recoveries.length > 0 then upsertRecoveries db.recovery recoveries else db.recovery
        sleep := if sleeps.length > 0 then upsertSleeps db.sleep sleeps else db.sleep
        workouts := if workouts.length > 0 then upsertWorkouts db.workouts workouts else db.workouts
        syncState := updateSyncState now (env.isoDate start) (env.isoDate now) db.syncState }
    stats := ⟨cycles.length, recoveries.length, sleeps.length, workouts.length⟩
    window := (start, now) }

/-- Model of `WhoopSync.quickSync()`: `syncDays(7)`. -/
def quickSync (env : SyncEnv) (now : ℤ) (db : WhoopDb) : SyncDaysOut :=
  syncDays env now 7 db

/-- The three-way result tag of `smartSync`. -/
inductive SyncType where
  | full
  | quick
  | skip
  deriving DecidableEq

/-- Result of `smartSync`: the tag, the stats of the sync performed (absent
on skip), the resulting store, and the list of windows fetched. -/
structure SmartSyncOut where
  type : SyncType
  stats : Option SyncStats
  db : WhoopDb
  fetched : List (ℤ × ℤ)

/-- Model of `WhoopSync.smartSync()`: never synced → full 90-day sync; synced within
the last hour (`(now - lastSync) / (1000*60*60) < 1`) → skip; otherwise →
quick 7-day sync. -/
def smartSync (env : SyncEnv) (now : ℤ) (db : WhoopDb) : SmartSyncOut :=
  match db.syncState.lastSyncAt with
  | none =>
      let o := syncDays env now 90 db
      ⟨.full, some o.stats, o.db, [o.window]⟩
  | some lastSync =>
      if ((now - lastSync : ℤ) : ℚ) / (1000 * 60 * 60) < 1 then
        ⟨.skip, none, db, []⟩
      else
        let o := quickSync env now db
        ⟨.quick, some o.stats, o.db, [o.window]⟩

/-! ## Gateway client token handling (`WhoopClient.request`) -/

/-- The token triple (types.ts `WhoopTokens`); `expires_at` is a Unix
millisecond timestamp. -/
structure WhoopTokens where
  access_token : String
  refresh_token : String
  expires_at : ℤ
  deriving DecidableEq

/-- Outcome of the token phase of one `WhoopClient.request` call:
either the request was aborted by a thrown error, or it proceeds with the
access token it will send, remembering whether a refresh happened first. -/
inductive ReqOutcome where
  | err (msg : String)
  | proceed (tokens : WhoopTokens) (didRefresh : Bool)
  deriving DecidableEq

/-- The token-handling prefix of `WhoopClient.request`:
`if (!this.tokens) throw; if (this.tokens.expires_at - Date.now() <
5 * 60 * 1000) await this.refreshTokens();` — a failed refresh rejects the
promise and aborts the request.  `refreshOutcome` is the result the
upstream refresh POST would produce (`none` = non-2xx response). -/
def request (tokens : Option WhoopTokens) (now : ℤ)
    (refreshOutcome : Option WhoopTokens) : ReqOutcome :=
  match tokens with
  | none => .err "Not authenticated"
  | some t =>
      if t.expires_at - now < 5 * 60 * 1000 then
        match refreshOutcome with
        | none => .err "Token refresh failed"
        | some fresh => .proceed fresh true
      else
        .proceed t false

/-! ## Crypto (crypto.ts) -/

/-- A byte. -/
abbrev Byte := Fin 256

/-- The lowercase hex alphabet used by `Buffer.toString('hex')`:
digits `0`-`9` then letters `a`-`f`. -/
def hexDigitChars : List Char :=
  (List.range 16).map (fun n => if n < 10 then Char.ofNat (48 + n) else Char.ofNat (87 + n))

/-- The hex character of a nibble. -/
def hexDigit (n : ℕ) : Char := hexDigitChars.getD n '0'

/-- Model of `Buffer.toString('hex')` for one byte: two lowercase hex characters. -/
def byteToHex (b : Byte) : List Char := [hexDigit (b.val / 16), hexDigit (b.val % 16)]

/-- Model of `Buffer.toString('hex')` for a byte buffer. -/
def bytesToHex : List Byte → List Char
  | [] => []
  | b :: bs => byteToHex b ++ bytesToHex bs

/-- The nibble value of a hex character. -/
def hexVal (c : Char) : Option ℕ := hexDigitChars.findIdx? (fun d => d == c)

/-- Model of `Buffer.from(s, 'hex')` on well-formed even-length hex input. -/
def hexToBytes : List Char → Option (List Byte)
  | [] => some []
  | [_] => none
  | c1 :: c2 :: rest =>
      match hexVal c1, hexVal c2, hexToBytes rest with
      | some h, some l, some bs =>
          if hl : h * 16 + l < 256 then some (⟨h * 16 + l, hl⟩ :: bs) else none
      | _, _, _ => none

/-- JS `String.prototype.split(':')` on a character list. -/
def splitOnColon : List Char → List (List Char)
  | [] => [[]]
  | c :: cs =>
      if c = ':' then
        [] :: splitOnColon cs
      else
        match splitOnColon cs with
        | [] => [[c]]
        | p :: ps => (c :: p) :: ps

/-- The AES-256-GCM primitive under a fixed derived key, abstracted:
`enc`/`tag` give ciphertext bytes and auth tag for an IV and a plaintext
(the utf8 step is folded into the abstraction), `dec` authenticates and
inverts (returning `none` on auth failure).  The format layer below is the
part implemented by crypto.ts. -/
structure GcmCipher where
  enc : List Byte → List Char → List Byte
  tag : List Byte → List Char → List Byte
  dec : List Byte → List Byte → List Byte → Option (List Char)

/-- Model of `encrypt(text)` (crypto.ts):
`iv.toString('hex') + ':' + authTag.toString('hex') + ':' + encrypted`. -/
def encrypt (c : GcmCipher) (iv : List Byte) (text : List Char) : List Char :=
  bytesToHex iv ++ ':' :: (bytesToHex (c.tag iv text) ++ ':' :: bytesToHex (c.enc iv text))

/-- Model of `decrypt(encryptedData)` (crypto.ts): destructure the first three
`':'`-separated parts, throw `Invalid encrypted data format` when any of
them is empty or missing (JS falsiness of `''` and `undefined`), then
decode the hex and run the authenticated decryption. -/
def decrypt (c : GcmCipher) (encryptedData : List Char) : Except String (List Char) :=
  let parts := splitOnColon encryptedData
  let ivHex := parts.getD 0 []
  let authTagHex := parts.getD 1 []
  let encrypted := parts.getD 2 []
  if ivHex = [] ∨ authTagHex = [] ∨ encrypted = [] then
    .error "Invalid encrypted data format"
  else
    match hexToBytes ivHex, hexToBytes authTagHex, hexToBytes encrypted with
    | some iv, some authTag, some ct =>
        match c.dec iv authTag ct with
        | some plain => .ok plain
        | none => .error "Unsupported state or unable to authenticate data"
    | _, _, _ => .error "Invalid hex payload"

/-- Model of `isEncrypted(data)` (crypto.ts): exactly three `':'`-separated parts
and a first part of length `IV_LENGTH * 2 = 32`. -/
def isEncrypted (data : List Char) : Bool :=
  let parts := splitOnColon data
  parts.length = 3 && (parts.getD 0 []).length = 16 * 2

/-- The read path of one stored token column in
`WhoopDatabase.getTokens`: `isEncrypted(v) ? decrypt(v) : v`. -/
def loadStoredToken (c : GcmCipher) (stored : List Char) : Except String (List Char) :=
  if isEncrypted stored then decrypt c stored else .ok stored

/-! ## Tool-layer helpers (index.ts) -/

/-- The `days` argument of a trend tool as the handler receives it:
absent (`undefined`/`null`), a finite JS number, `NaN`, or a non-number
value `v` for which `Number.parseInt(String(v), 10)` yields the given
integer (`none` = `NaN`). -/
inductive DaysArg where
  | absent
  | num (q : ℚ)
  | nan
  | other (parsed : Option ℤ)
  deriving DecidableEq

/-- Model of `validateDays(value)` (index.ts): absent → 14; parse failure or value
below 1 → 14; otherwise `Math.min(num, 90)`. -/
def validateDays (value : DaysArg) : ℚ :=
  match value with
  | .absent => 14
  | .nan => 14
  | .num q => if q < 1 then 14 else min q 90
  | .other none => 14
  | .other (some n) => if (n : ℚ) < 1 then 14 else min (n : ℚ) 90

/-- A tool response: the rendered text plus the `isError` flag of the MCP
result object. -/
structure ToolResponse where
  text : String
  isError : Bool
  deriving DecidableEq

/-- The tools that trigger an opportunistic `smartSync` before answering
from the store (index.ts `dataTools`). -/
def dataTools : List String :=
  ["get_today", "get_recovery_trends", "get_sleep_analysis", "get_strain_history"]

/-- The `CallToolRequestSchema` handler's control flow for a data-query
tool, with the body that renders from the cached store abstracted as
`renderFromStore`: the opportunistic `await sync.smartSync()` sits in a
`try { ... } catch { /* continue with cached data */ }`, so its outcome —
`syncOutcome` is `.error e` when smartSync rejects — never changes the
response. -/
def handleDataTool (hasTokens : Bool) (syncOutcome : Except String SmartSyncOut)
    (renderFromStore : String) : ToolResponse :=
  if ¬hasTokens then
    ⟨"Not authenticated with Whoop. Use get_auth_url to authorize first.", false⟩
  else
    match syncOutcome with
    | .ok _ => ⟨renderFromStore, false⟩
    | .error _ => ⟨renderFromStore, false⟩

/-- The rendered success text of the `sync_data` tool (the per-kind counts
it interpolates are irrelevant to the propagation claims). -/
def syncCompleteText (_stats : Option SyncStats) : String := "Sync complete!"

/-- The `sync_data` handler: no inner try/catch, so a rejection from
`syncDays`/`smartSync` escapes to the outer
`catch (error) { return { content: [{ text: Error: message }], isError:
true } }` of the `CallToolRequestSchema` handler. -/
def handleSyncData (hasTokens : Bool) (full : Bool)
    (syncDaysOutcome : Except String SyncStats)
    (smartSyncOutcome : Except String SmartSyncOut) : ToolResponse :=
  if ¬hasTokens then
    ⟨"Not authenticated with Whoop. Use get_auth_url to authorize first.", false⟩
  else if full then
    match syncDaysOutcome with
    | .error e => ⟨"Error: " ++ e, true⟩
    | .ok stats => ⟨syncCompleteText (some stats), false⟩
  else
    match smartSyncOutcome with
    | .error e => ⟨"Error: " ++ e, true⟩
    | .ok r =>
        if r.type = .skip then
          ⟨"Data is already up to date (synced within the last hour).", false⟩
        else
          ⟨syncCompleteText r.stats, false⟩

/-! ## Lemmas about `INSERT OR REPLACE` batches -/

theorem upsertRow_nil {ρ κ : Type} [DecidableEq κ] (key : ρ → κ) (r : ρ) :
    upsertRow key [] r = [r] := rfl

theorem upsertBatch_cons {ρ κ : Type} [DecidableEq κ] (key : ρ → κ)
    (tbl : List ρ) (r : ρ) (rs : List ρ) :
    upsertBatch key tbl (r :: rs) = upsertBatch key (upsertRow key tbl r) rs := rfl

/-- Characterisation of a whole batch: the surviving old rows are exactly
those whose key does not occur in the batch, followed by the rows the batch
itself produces. -/
theorem upsertBatch_eq_filter_append {ρ κ : Type} [DecidableEq κ] (key : ρ → κ)
    (rs : List ρ) : ∀ tbl : List ρ,
    upsertBatch key tbl rs =
      tbl.filter (fun x => decide (key x ∉ rs.map key)) ++ upsertBatch key [] rs := by
  induction rs with
  | nil =>
      intro tbl
      simp [upsertBatch]
  | cons r rs ih =>
      intro tbl
      rw [upsertBatch_cons, ih (upsertRow key tbl r), upsertBatch_cons key [] r rs,
        upsertRow_nil, ih [r]]
      rw [upsertRow, List.filter_append, List.filter_filter]
      have hpred : (fun a => decide (key a ∉ rs.map key) && decide (key a ≠ key r))
          = fun x => decide (key x ∉ (r :: rs).map key) := by
        funext x
        by_cases h1 : key x = key r <;> by_cases h2 : key x ∈ rs.map key <;>
          simp [h1, h2]
      rw [hpred]
      simp [List.append_assoc]

/-- Every row in the upserted table comes wholesale from the old table or
from the batch — there is no row mixing fields of both. -/
theorem mem_upsertBatch {ρ κ : Type} [DecidableEq κ] (key : ρ → κ) (rs : List ρ)
    (x : ρ) : ∀ tbl : List ρ, x ∈ upsertBatch key tbl rs → x ∈ tbl ∨ x ∈ rs := by
  induction rs with
  | nil =>
      intro tbl hx
      exact Or.inl hx
  | cons r rs ih =>
      intro tbl hx
      rw [upsertBatch_cons] at hx
      rcases ih (upsertRow key tbl r) hx with h | h
      · rw [upsertRow] at h
        rcases List.mem_append.mp h with h | h
        · exact Or.inl (List.mem_of_mem_filter h)
        · simp at h
          exact Or.inr (by simp [h])
      · exact Or.inr (List.mem_cons_of_mem r h)

/-- A single `INSERT OR REPLACE` keeps the primary keys duplicate-free. -/
theorem nodup_keys_upsertRow {ρ κ : Type} [DecidableEq κ] (key : ρ → κ)
    (tbl : List ρ) (r : ρ) (h : (tbl.map key).Nodup) :
    ((upsertRow key tbl r).map key).Nodup := by
  rw [upsertRow, List.map_append]
  rw [List.nodup_append]
  refine ⟨?_, by simp, ?_⟩
  · exact ((tbl.filter_sublist).map key).nodup h
  · intro a ha
    simp only [List.map_cons, List.map_nil, List.mem_singleton]
    rcases List.mem_map.mp ha with ⟨y, hy, rfl⟩
    have := List.of_mem_filter hy
    simpa using this

/-- A whole upsert batch keeps the primary keys duplicate-free: no
duplicate rows are ever created. -/
theorem nodup_keys_upsertBatch {ρ κ : Type} [DecidableEq κ] (key : ρ → κ)
    (rs : List ρ) : ∀ tbl : List ρ, (tbl.map key).Nodup →
    ((upsertBatch key tbl rs).map key).Nodup := by
  induction rs with
  | nil =>
      intro tbl h
      exact h
  | cons r rs ih =>
      intro tbl h
      rw [upsertBatch_cons]
      exact ih _ (nodup_keys_upsertRow key tbl r h)

/-- Applying the same batch twice yields exactly the same stored rows as
applying it once. -/
theorem upsertBatch_idem {ρ κ : Type} [DecidableEq κ] (key : ρ → κ)
    (tbl rs : List ρ) :
    upsertBatch key (upsertBatch key tbl rs) rs = upsertBatch key tbl rs := by
  rw [upsertBatch_eq_filter_append key rs (upsertBatch key tbl rs),
    upsertBatch_eq_filter_append key rs tbl]
  rw [List.filter_append, List.filter_filter]
  have h1 : (fun a => decide (key a ∉ rs.map key) && decide (key a ∉ rs.map key))
      = fun a => decide (key a ∉ rs.map key) := by
    funext a
    by_cases h : key a ∈ rs.map key <;> simp [h]
  have h2 : (upsertBatch key [] rs).filter (fun a => decide (key a ∉ rs.map key)) = [] := by
    rw [List.filter_eq_nil_iff]
    intro a ha
    rcases mem_upsertBatch key rs a [] ha with h | h
    · cases h
    · simp [List.mem_map]
      exact ⟨a, h, rfl⟩
  rw [h1, h2]
  simp

/-! ## Lemmas about the descending sort -/

theorem mem_insertDescBy {α : Type} (key : α → ℤ) (x a : α) :
    ∀ l : List α, a ∈ insertDescBy key x l ↔ a = x ∨ a ∈ l := by
  intro l
  induction l with
  | nil => simp [insertDescBy]
  | cons y ys ih =>
      simp only [insertDescBy]
      split
      · simp [List.mem_cons]
      · simp only [List.mem_cons, ih]
        tauto

theorem pairwise_insertDescBy {α : Type} (key : α → ℤ) (x : α) :
    ∀ l : List α, l.Pairwise (fun a b => key b ≤ key a) →
    (insertDescBy key x l).Pairwise (fun a b => key b ≤ key a) := by
  intro l
  induction l with
  | nil =>
      intro _
      simp [insertDescBy]
  | cons y ys ih =>
      intro h
      have hy := (List.pairwise_cons.mp h).1
      have hys := (List.pairwise_cons.mp h).2
      simp only [insertDescBy]
      split
      · rename_i hxy
        exact List.pairwise_cons.mpr ⟨by
          intro b hb
          rcases List.mem_cons.mp hb with rfl | hb
          · exact hxy
          · exact le_trans (hy b hb) hxy, h⟩
      · rename_i hxy
        push_neg at hxy
        refine List.pairwise_cons.mpr ⟨?_, ih hys⟩
        intro b hb
        rcases (mem_insertDescBy key x b ys).mp hb with rfl | hb
        · exact le_of_lt hxy
        · exact hy b hb

theorem mem_sortDescBy {α : Type} (key : α → ℤ) (l : List α) (a : α) :
    a ∈ sortDescBy key l ↔ a ∈ l := by
  induction l with
  | nil => simp [sortDescBy]
  | cons y ys ih =>
      show a ∈ insertDescBy key y (sortDescBy key ys) ↔ _
      rw [mem_insertDescBy, ih]
      simp [List.mem_cons]

theorem pairwise_sortDescBy {α : Type} (key : α → ℤ) (l : List α) :
    (sortDescBy key l).Pairwise (fun a b => key b ≤ key a) := by
  induction l with
  | nil => simp [sortDescBy]
  | cons y ys ih => exact pairwise_insertDescBy key y (sortDescBy key ys) ih

/-! ## Lemmas about the widen-only sync-state merge -/

theorem mergeOldest_none (o : String) : mergeOldest none o = o := rfl

theorem mergeNewest_none (n : String) : mergeNewest none n = n := rfl

/-- On a present boundary the CASE expression is exactly a lexicographic
minimum. -/
theorem mergeOldest_some (c o : String) : mergeOldest (some c) o = min o c := by
  show (if o < c then o else c) = min o c
  rw [min_def]
  rcases lt_trichotomy o c with h | h | h
  · rw [if_pos h, if_pos h.le]
  · subst h
    simp
  · rw [if_neg (not_lt.mpr h.le), if_neg (not_le.mpr h)]

/-- On a present boundary the CASE expression is exactly a lexicographic
maximum. -/
theorem mergeNewest_some (c n : String) : mergeNewest (some c) n = max n c := by
  show (if c < n then n else c) = max n c
  rw [max_def]
  rcases lt_trichotomy c n with h | h | h
  · rw [if_pos h, if_neg (not_le.mpr h)]
  · subst h
    simp
  · rw [if_neg (not_lt.mpr h.le), if_pos h.le]

/-- A sequence of `updateSyncState` calls, each given as
`(now, oldestDate, newestDate)`, applied in order. -/
def applySyncCalls (st : SyncState) (calls : List (ℤ × String × String)) : SyncState :=
  calls.foldl (fun s c => updateSyncState c.1 c.2.1 c.2.2 s) st

theorem foldl_min_le (os : List String) : ∀ x : String, ∀ y ∈ x :: os,
    os.foldl min x ≤ y := by
  induction os with
  | nil =>
      intro x y hy
      simp at hy
      simp [hy]
  | cons o os ih =>
      intro x y hy
      show (os.foldl min (min x o)) ≤ y
      rcases List.mem_cons.mp hy with h | h
      · rw [h]
        exact le_trans (ih (min x o) _ (List.mem_cons_self _ _)) (min_le_left x o)
      · rcases List.mem_cons.mp h with h2 | h2
        · rw [h2]
          exact le_trans (ih (min x o) _ (List.mem_cons_self _ _)) (min_le_right x o)
        · exact ih (min x o) y (List.mem_cons_of_mem _ h2)

theorem foldl_min_mem (os : List String) : ∀ x : String,
    os.foldl min x ∈ x :: os := by
  induction os with
  | nil =>
      intro x
      simp
  | cons o os ih =>
      intro x
      show (os.foldl min (min x o)) ∈ x :: o :: os
      have hm := ih (min x o)
      rcases List.mem_cons.mp hm with h | h
      · rcases min_choice x o with hc | hc
        · rw [h, hc]
          exact List.mem_cons_self _ _
        · rw [h, hc]
          exact List.mem_cons_of_mem _ (List.mem_cons_self _ _)
      · exact List.mem_cons_of_mem _ (List.mem_cons_of_mem _ h)

theorem foldl_le_max (os : List String) : ∀ x : String, ∀ y ∈ x :: os,
    y ≤ os.foldl max x := by
  induction os with
  | nil =>
      intro x y hy
      simp at hy
      simp [hy]
  | cons o os ih =>
      intro x y hy
      show y ≤ (os.foldl max (max x o))
      rcases List.mem_cons.mp hy with h | h
      · rw [h]
        exact le_trans (le_max_left x o) (ih (max x o) _ (List.mem_cons_self _ _))
      · rcases List.mem_cons.mp h with h2 | h2
        · rw [h2]
          exact le_trans (le_max_right x o) (ih (max x o) _ (List.mem_cons_self _ _))
        · exact ih (max x o) y (List.mem_cons_of_mem _ h2)

theorem foldl_max_mem (os : List String) : ∀ x : String,
    os.foldl max x ∈ x :: os := by
  induction os with
  | nil =>
      intro x
      simp
  | cons o os ih =>
      intro x
      show (os.foldl max (max x o)) ∈ x :: o :: os
      have hm := ih (max x o)
      rcases List.mem_cons.mp hm with h | h
      · rcases max_choice x o with hc | hc
        · rw [h, hc]
          exact List.mem_cons_self _ _
        · rw [h, hc]
          exact List.mem_cons_of_mem _ (List.mem_cons_self _ _)
      · exact List.mem_cons_of_mem _ (List.mem_cons_of_mem _ h)

/-- After any call sequence starting from a state whose oldest boundary is
`some x`, the oldest boundary is the fold of lexicographic minima. -/
theorem applySyncCalls_oldest (calls : List (ℤ × String × String)) :
    ∀ st : SyncState, ∀ x : String, st.oldestDate = some x →
    (applySyncCalls st calls).oldestDate =
      some ((calls.map (fun c => c.2.1)).foldl min x) := by
  induction calls with
  | nil =>
      intro st x hx
      exact hx
  | cons c calls ih =>
      intro st x hx
      show (applySyncCalls (updateSyncState c.1 c.2.1 c.2.2 st) calls).oldestDate = _
      rw [ih (updateSyncState c.1 c.2.1 c.2.2 st) (mergeOldest st.oldestDate c.2.1) rfl]
      rw [hx, mergeOldest_some, min_comm]
      simp

/-- Symmetric statement for the newest boundary. -/
theorem applySyncCalls_newest (calls : List (ℤ × String × String)) :
    ∀ st : SyncState, ∀ x : String, st.newestDate = some x →
    (applySyncCalls st calls).newestDate =
      some ((calls.map (fun c => c.2.2)).foldl max x) := by
  induction calls with
  | nil =>
      intro st x hx
      exact hx
  | cons c calls ih =>
      intro st x hx
      show (applySyncCalls (updateSyncState c.1 c.2.1 c.2.2 st) calls).newestDate = _
      rw [ih (updateSyncState c.1 c.2.1 c.2.2 st) (mergeNewest st.newestDate c.2.2) rfl]
      rw [hx, mergeNewest_some, max_comm]
      simp

/-! ## Lemmas about the crypto format layer -/

theorem hexVal_hexDigit (n : ℕ) (h : n < 16) : hexVal (hexDigit n) = some n := by
  have hf : ∀ m : Fin 16, hexVal (hexDigit m.val) = some m.val := by decide
  exact hf ⟨n, h⟩

theorem hexDigit_ne_colon (n : ℕ) : hexDigit n ≠ ':' := by
  by_cases h : n < 16
  · have hf : ∀ m : Fin 16, hexDigit m.val ≠ ':' := by decide
    exact hf ⟨n, h⟩
  · rw [hexDigit, List.getD_eq_default]
    · decide
    · show hexDigitChars.length ≤ n
      simp [hexDigitChars]
      omega

theorem bytesToHex_ne_colon (bs : List Byte) : ∀ c ∈ bytesToHex bs, c ≠ ':' := by
  induction bs with
  | nil => simp [bytesToHex]
  | cons b bs ih =>
      intro c hc
      rcases List.mem_append.mp hc with h | h
      · rcases List.mem_cons.mp h with rfl | h
        · exact hexDigit_ne_colon _
        · rcases List.mem_cons.mp h with rfl | h
          · exact hexDigit_ne_colon _
          · cases h
      · exact ih c h

theorem bytesToHex_eq_nil (bs : List Byte) : bytesToHex bs = [] ↔ bs = [] := by
  cases bs <;> simp [bytesToHex, byteToHex]

/-- JS `split(':')` on a colon-free string returns the one-element array. -/
theorem splitOnColon_no_colon (a : List Char) (h : ∀ c ∈ a, c ≠ ':') :
    splitOnColon a = [a] := by
  induction a with
  | nil => rfl
  | cons c cs ih =>
      have hc : c ≠ ':' := h c (List.mem_cons_self _ _)
      show splitOnColon (c :: cs) = _
      rw [splitOnColon, if_neg hc, ih (fun x hx => h x (List.mem_cons_of_mem _ hx))]

/-- JS `split(':')`: a colon-free prefix becomes the first part. -/
theorem splitOnColon_append (a rest : List Char) (h : ∀ c ∈ a, c ≠ ':') :
    splitOnColon (a ++ ':' :: rest) = a :: splitOnColon rest := by
  induction a with
  | nil => simp [splitOnColon]
  | cons c cs ih =>
      have hc : c ≠ ':' := h c (List.mem_cons_self _ _)
      show splitOnColon (c :: (cs ++ ':' :: rest)) = _
      rw [splitOnColon, if_neg hc, ih (fun x hx => h x (List.mem_cons_of_mem _ hx))]

/-- Hex decoding inverts hex encoding. -/
theorem hexToBytes_bytesToHex (bs : List Byte) : hexToBytes (bytesToHex bs) = some bs := by
  induction bs with
  | nil => rfl
  | cons b bs ih =>
      show hexToBytes (hexDigit (b.val / 16) :: hexDigit (b.val % 16) :: bytesToHex bs) = _
      rw [hexToBytes, hexVal_hexDigit _ (by omega), hexVal_hexDigit _ (by omega), ih]
      have hl : b.val / 16 * 16 + b.val % 16 < 256 := by omega
      show (if hl : b.val / 16 * 16 + b.val % 16 < 256 then
          some ((⟨b.val / 16 * 16 + b.val % 16, hl⟩ : Byte) :: bs) else none) = some (b :: bs)
      rw [dif_pos hl]
      have hb : (⟨b.val / 16 * 16 + b.val % 16, hl⟩ : Byte) = b := by
        apply Fin.ext
        show b.val / 16 * 16 + b.val % 16 = b.val
        omega
      rw [hb]

theorem bytesToHex_length (bs : List Byte) : (bytesToHex bs).length = 2 * bs.length := by
  induction bs with
  | nil => rfl
  | cons b bs ih =>
      show (byteToHex b ++ bytesToHex bs).length = 2 * (bs.length + 1)
      rw [List.length_append, ih]
      simp [byteToHex]
      omega

/-- The three parts of an `encrypt` output, as JS `split(':')` sees them. -/
theorem splitOnColon_encrypt (c : GcmCipher) (iv : List Byte) (pt : List Char) :
    splitOnColon (encrypt c iv pt) =
      [bytesToHex iv, bytesToHex (c.tag iv pt), bytesToHex (c.enc iv pt)] := by
  rw [encrypt, splitOnColon_append _ _ (bytesToHex_ne_colon iv),
    splitOnColon_append _ _ (bytesToHex_ne_colon _),
    splitOnColon_no_colon _ (bytesToHex_ne_colon _)]

/-- Decryption inverts encryption whenever the IV, the auth tag and the
ciphertext are all non-empty and the underlying cipher authenticates. -/
theorem decrypt_encrypt (c : GcmCipher) (iv : List Byte) (pt : List Char)
    (hiv : iv ≠ []) (htag : c.tag iv pt ≠ []) (hct : c.enc iv pt ≠ [])
    (hdec : c.dec iv (c.tag iv pt) (c.enc iv pt) = some pt) :
    decrypt c (encrypt c iv pt) = .ok pt := by
  rw [decrypt, splitOnColon_encrypt]
  simp only [List.getD, List.get?_cons_zero, List.get?_cons_succ, Option.getD_some]
  rw [if_neg (by
    push_neg
    refine ⟨?_, ?_, ?_⟩ <;> rw [Ne, bytesToHex_eq_nil] <;> assumption)]
  rw [hexToBytes_bytesToHex, hexToBytes_bytesToHex, hexToBytes_bytesToHex]
  show (match c.dec iv (c.tag iv pt) (c.enc iv pt) with
    | some plain => Except.ok plain
    | none => Except.error "Unsupported state or unable to authenticate data") = Except.ok pt
  rw [hdec]

/-- Every `encrypt` output passes the `isEncrypted` format sniff (the IV is
the 16-byte `randomBytes(IV_LENGTH)` buffer). -/
theorem isEncrypted_encrypt (c : GcmCipher) (iv : List Byte) (pt : List Char)
    (hiv : iv.length = 16) : isEncrypted (encrypt c iv pt) = true := by
  rw [isEncrypted, splitOnColon_encrypt]
  simp [bytesToHex_length, hiv]

/-! ## Claim theorems -/

/-- A Gateway that returns nothing and a trivial date renderer, used to
instantiate theorems at concrete inputs. -/
def trivialEnv : SyncEnv where
  getAllCycles := fun _ _ => []
  getAllRecoveries := fun _ _ => []
  getAllSleeps := fun _ _ => []
  getAllWorkouts := fun _ _ => []
  isoDate := fun _ => "1970-01-01"

/-- An otherwise empty store whose sync state records a last sync at `t`. -/
def dbSyncedAt (t : ℤ) : WhoopDb :=
  { emptyDb with syncState := { emptySyncState with lastSyncAt := some t } }

/-- C1: `smartSync` makes a total, deterministic three-way decision on
`(last_sync_at, now)`: absent `last_sync_at` → a 90-day sync tagged
`full`; `now - last_sync_at` at least one hour → a 7-day sync tagged
`quick`; less than one hour → tag `skip` with no fetches and no store
writes. -/
theorem smartSync_decision_table (env : SyncEnv) (db : WhoopDb) (now : ℤ) :
    (db.syncState.lastSyncAt = none →
      smartSync env now db =
        ⟨.full, some (syncDays env now 90 db).stats, (syncDays env now 90 db).db,
          [(now - 90 * dayMs, now)]⟩)
    ∧ (∀ t : ℤ, db.syncState.lastSyncAt = some t → hourMs ≤ now - t →
      smartSync env now db =
        ⟨.quick, some (syncDays env now 7 db).stats, (syncDays env now 7 db).db,
          [(now - 7 * dayMs, now)]⟩)
    ∧ (∀ t : ℤ, db.syncState.lastSyncAt = some t → now - t < hourMs →
      smartSync env now db = ⟨.skip, none, db, []⟩) := by
  refine ⟨?_, ?_, ?_⟩
  · intro h
    simp only [smartSync, h]
    rfl
  · intro t h hge
    have hc : (3600000 : ℚ) ≤ (now : ℚ) - (t : ℚ) := by
      have hge3 : (3600000 : ℤ) ≤ now - t := hge
      exact_mod_cast hge3
    simp only [smartSync, h]
    rw [if_neg (by
      rw [not_lt, le_div_iff₀ (by norm_num)]
      push_cast
      linarith)]
    rfl
  · intro t h hlt
    have hc : (now : ℚ) - (t : ℚ) < 3600000 := by
      have hlt3 : now - t < (3600000 : ℤ) := hlt
      exact_mod_cast hlt3
    simp only [smartSync, h]
    rw [if_pos (by
      rw [div_lt_one (by norm_num)]
      push_cast
      linarith)]

theorem smartSync_decision_table_witness :
    (smartSync trivialEnv 0 emptyDb =
      ⟨.full, some (syncDays trivialEnv 0 90 emptyDb).stats,
        (syncDays trivialEnv 0 90 emptyDb).db, [(0 - 90 * dayMs, 0)]⟩)
    ∧ (smartSync trivialEnv 3600000 (dbSyncedAt 0) =
      ⟨.quick, some (syncDays trivialEnv 3600000 7 (dbSyncedAt 0)).stats,
        (syncDays trivialEnv 3600000 7 (dbSyncedAt 0)).db,
        [(3600000 - 7 * dayMs, 3600000)]⟩)
    ∧ (smartSync trivialEnv 3599999 (dbSyncedAt 0) =
      ⟨.skip, none, dbSyncedAt 0, []⟩) :=
  ⟨(smartSync_decision_table trivialEnv emptyDb 0).1 rfl,
    (smartSync_decision_table trivialEnv (dbSyncedAt 0) 3600000).2.1 0 rfl (by decide),
    (smartSync_decision_table trivialEnv (dbSyncedAt 0) 3599999).2.2 0 rfl (by decide)⟩

/-- C2: for every store state and every batch of one record kind, the
upsert is idempotent (applying the batch twice equals applying it once),
keeps primary keys duplicate-free, and every stored row comes wholesale
from the old store or from one record of the batch — full replacement,
never field-level mixing. -/
theorem upsertBatch_idempotent_all_kinds (S : WhoopDb) (bc : List WhoopCycle)
    (br : List WhoopRecovery) (bs : List WhoopSleep) (bw : List WhoopWorkout) :
    (upsertCycles (upsertCycles S.cycles bc) bc = upsertCycles S.cycles bc
      ∧ ((S.cycles.map (fun r => r.id)).Nodup →
          ((upsertCycles S.cycles bc).map (fun r => r.id)).Nodup)
      ∧ (∀ x ∈ upsertCycles S.cycles bc, x ∈ S.cycles ∨ ∃ c ∈ bc, x = cycleRow c))
    ∧ (upsertRecoveries (upsertRecoveries S.recovery br) br = upsertRecoveries S.recovery br
      ∧ ((S.recovery.map (fun r => r.id)).Nodup →
          ((upsertRecoveries S.recovery br).map (fun r => r.id)).Nodup)
      ∧ (∀ x ∈ upsertRecoveries S.recovery br, x ∈ S.recovery ∨ ∃ c ∈ br, x = recoveryRow c))
    ∧ (upsertSleeps (upsertSleeps S.sleep bs) bs = upsertSleeps S.sleep bs
      ∧ ((S.sleep.map (fun r => r.id)).Nodup →
          ((upsertSleeps S.sleep bs).map (fun r => r.id)).Nodup)
      ∧ (∀ x ∈ upsertSleeps S.sleep bs, x ∈ S.sleep ∨ ∃ c ∈ bs, x = sleepRow c))
    ∧ (upsertWorkouts (upsertWorkouts S.workouts bw) bw = upsertWorkouts S.workouts bw
      ∧ ((S.workouts.map (fun r => r.id)).Nodup →
          ((upsertWorkouts S.workouts bw).map (fun r => r.id)).Nodup)
      ∧ (∀ x ∈ upsertWorkouts S.workouts bw, x ∈ S.workouts ∨ ∃ c ∈ bw, x = workoutRow c)) := by
  refine ⟨⟨upsertBatch_idem _ _ _, nodup_keys_upsertBatch _ _ _, ?_⟩,
    ⟨upsertBatch_idem _ _ _, nodup_keys_upsertBatch _ _ _, ?_⟩,
    ⟨upsertBatch_idem _ _ _, nodup_keys_upsertBatch _ _ _, ?_⟩,
    ⟨upsertBatch_idem _ _ _, nodup_keys_upsertBatch _ _ _, ?_⟩⟩
  · intro x hx
    rcases mem_upsertBatch _ _ x _ hx with h | h
    · exact Or.inl h
    · rcases List.mem_map.mp h with ⟨c, hc, rfl⟩
      exact Or.inr ⟨c, hc, rfl⟩
  · intro x hx
    rcases mem_upsertBatch _ _ x _ hx with h | h
    · exact Or.inl h
    · rcases List.mem_map.mp h with ⟨c, hc, rfl⟩
      exact Or.inr ⟨c, hc, rfl⟩
  · intro x hx
    rcases mem_upsertBatch _ _ x _ hx with h | h
    · exact Or.inl h
    · rcases List.mem_map.mp h with ⟨c, hc, rfl⟩
      exact Or.inr ⟨c, hc, rfl⟩
  · intro x hx
    rcases mem_upsertBatch _ _ x _ hx with h | h
    · exact Or.inl h
    · rcases List.mem_map.mp h with ⟨c, hc, rfl⟩
      exact Or.inr ⟨c, hc, rfl⟩

/-- A concrete upstream cycle used for instantiations. -/
def witnessCycle : WhoopCycle :=
  ⟨1, 7, 0, none, "+00:00", "SCORED", some ⟨10, 100, 60, 150⟩⟩

/-- A concrete upstream recovery used for instantiations. -/
def witnessRecovery : WhoopRecovery :=
  ⟨1, "sl1", 7, 0, 0, "SCORED", some ⟨false, 50, 60, 30, none, none⟩⟩

/-- A concrete upstream sleep used for instantiations. -/
def witnessSleep : WhoopSleep :=
  ⟨"sl1", 7, 0, 0, 0, 100, "+00:00", false, "SCORED", none⟩

/-- A concrete upstream workout used for instantiations. -/
def witnessWorkout : WhoopWorkout :=
  ⟨"w1", 7, 0, 0, 0, 100, "+00:00", 3, "SCORED", none⟩

theorem upsertBatch_idempotent_all_kinds_witness :
    (upsertCycles (upsertCycles emptyDb.cycles [witnessCycle]) [witnessCycle]
      = upsertCycles emptyDb.cycles [witnessCycle])
    ∧ ((upsertCycles emptyDb.cycles [witnessCycle]).map (fun r => r.id)).Nodup
    ∧ (cycleRow witnessCycle ∈ emptyDb.cycles
        ∨ ∃ c ∈ [witnessCycle], cycleRow witnessCycle = cycleRow c)
    ∧ (upsertRecoveries (upsertRecoveries emptyDb.recovery [witnessRecovery]) [witnessRecovery]
      = upsertRecoveries emptyDb.recovery [witnessRecovery])
    ∧ (upsertSleeps (upsertSleeps emptyDb.sleep [witnessSleep]) [witnessSleep]
      = upsertSleeps emptyDb.sleep [witnessSleep])
    ∧ (upsertWorkouts (upsertWorkouts emptyDb.workouts [witnessWorkout]) [witnessWorkout]
      = upsertWorkouts emptyDb.workouts [witnessWorkout]) :=
  have h := upsertBatch_idempotent_all_kinds emptyDb [witnessCycle] [witnessRecovery]
    [witnessSleep] [witnessWorkout]
  ⟨h.1.1, h.1.2.1 (by decide), h.1.2.2 (cycleRow witnessCycle) (by decide),
    h.2.1.1, h.2.2.1.1, h.2.2.2.1⟩

/-- C3: over any non-empty sequence of `updateSyncState` calls starting
from the freshly initialised sync state, the final oldest boundary is the
minimum of all oldest dates passed and the final newest boundary is the
maximum of all newest dates passed (the boundaries only widen), and every
single call stamps `last_sync_at` with its current time. -/
theorem updateSyncState_monotone (calls : List (ℤ × String × String))
    (h : calls ≠ []) :
    (∃ m, (applySyncCalls emptySyncState calls).oldestDate = some m
      ∧ m ∈ calls.map (fun c => c.2.1)
      ∧ ∀ o ∈ calls.map (fun c => c.2.1), m ≤ o)
    ∧ (∃ M, (applySyncCalls emptySyncState calls).newestDate = some M
      ∧ M ∈ calls.map (fun c => c.2.2)
      ∧ ∀ n ∈ calls.map (fun c => c.2.2), n ≤ M)
    ∧ (∀ (st : SyncState) (now : ℤ) (o n : String),
        (updateSyncState now o n st).lastSyncAt = some now) := by
  obtain ⟨c, rest, rfl⟩ := List.exists_cons_of_ne_nil h
  refine ⟨⟨(rest.map (fun x => x.2.1)).foldl min c.2.1, ?_, ?_, ?_⟩,
    ⟨(rest.map (fun x => x.2.2)).foldl max c.2.2, ?_, ?_, ?_⟩,
    fun st now o n => rfl⟩
  · exact applySyncCalls_oldest rest (updateSyncState c.1 c.2.1 c.2.2 emptySyncState)
      c.2.1 rfl
  · rw [List.map_cons]
    exact foldl_min_mem _ c.2.1
  · rw [List.map_cons]
    exact foldl_min_le _ c.2.1
  · exact applySyncCalls_newest rest (updateSyncState c.1 c.2.1 c.2.2 emptySyncState)
      c.2.2 rfl
  · rw [List.map_cons]
    exact foldl_max_mem _ c.2.2
  · rw [List.map_cons]
    exact foldl_le_max _ c.2.2

theorem updateSyncState_monotone_witness :
    (∃ m, (applySyncCalls emptySyncState
        [(5, "2025-02-01", "2025-02-10"), (6, "2025-01-15", "2025-01-20")]).oldestDate = some m
      ∧ m ∈ [(5, "2025-02-01", "2025-02-10"),
          (6, "2025-01-15", "2025-01-20")].map (fun c => c.2.1)
      ∧ ∀ o ∈ [(5, "2025-02-01", "2025-02-10"),
          (6, "2025-01-15", "2025-01-20")].map (fun c => c.2.1), m ≤ o)
    ∧ (∃ M, (applySyncCalls emptySyncState
        [(5, "2025-02-01", "2025-02-10"), (6, "2025-01-15", "2025-01-20")]).newestDate = some M
      ∧ M ∈ [(5, "2025-02-01", "2025-02-10"),
          (6, "2025-01-15", "2025-01-20")].map (fun c => c.2.2)
      ∧ ∀ n ∈ [(5, "2025-02-01", "2025-02-10"),
          (6, "2025-01-15", "2025-01-20")].map (fun c => c.2.2), n ≤ M)
    ∧ (∀ (st : SyncState) (now : ℤ) (o n : String),
        (updateSyncState now o n st).lastSyncAt = some now) :=
  updateSyncState_monotone
    [(5, "2025-02-01", "2025-02-10"), (6, "2025-01-15", "2025-01-20")] (by simp)

/-- C4: a refresh happens on an authenticated request if and only if the
token expires within five minutes of `now`: with at least five minutes
left, the request proceeds with the held token and no refresh; with less,
the request proceeds only after a completed refresh, and a failed refresh
aborts it with an error. -/
theorem request_refresh_iff (t : WhoopTokens) (now : ℤ)
    (refreshOutcome : Option WhoopTokens) :
    (5 * 60 * 1000 ≤ t.expires_at - now →
      request (some t) now refreshOutcome = .proceed t false)
    ∧ (t.expires_at - now < 5 * 60 * 1000 → refreshOutcome = none →
      request (some t) now refreshOutcome = .err "Token refresh failed")
    ∧ (∀ fresh, t.expires_at - now < 5 * 60 * 1000 → refreshOutcome = some fresh →
      request (some t) now refreshOutcome = .proceed fresh true)
    ∧ (∀ (tk : WhoopTokens) (dr : Bool),
      request (some t) now refreshOutcome = .proceed tk dr →
      (dr = true ↔ t.expires_at - now < 5 * 60 * 1000)) := by
  have hreq_some : ∀ ro : Option WhoopTokens, request (some t) now ro =
      if t.expires_at - now < 5 * 60 * 1000 then
        (match ro with
          | none => ReqOutcome.err "Token refresh failed"
          | some fresh => ReqOutcome.proceed fresh true)
      else ReqOutcome.proceed t false := fun _ => rfl
  refine ⟨?_, ?_, ?_, ?_⟩
  · intro h
    rw [hreq_some, if_neg (not_lt.mpr h)]
  · intro h hn
    rw [hreq_some, if_pos h, hn]
  · intro fresh h hs
    rw [hreq_some, if_pos h, hs]
  · intro tk dr hreq
    rw [hreq_some] at hreq
    by_cases h : t.expires_at - now < 5 * 60 * 1000
    · rw [if_pos h] at hreq
      cases hrf : refreshOutcome with
      | none =>
          rw [hrf] at hreq
          cases hreq
      | some fresh =>
          rw [hrf] at hreq
          cases hreq
          simp only [true_iff]
          omega
    · rw [if_neg h] at hreq
      cases hreq
      simp only [Bool.false_eq_true, false_iff, not_lt]
      omega

theorem request_refresh_iff_witness :
    (request (some ⟨"a", "r", 600000⟩) 0 none = .proceed ⟨"a", "r", 600000⟩ false)
    ∧ (request (some ⟨"a", "r", 100000⟩) 0 none = .err "Token refresh failed")
    ∧ (request (some ⟨"a", "r", 100000⟩) 0 (some ⟨"b", "r2", 999999⟩)
        = .proceed ⟨"b", "r2", 999999⟩ true)
    ∧ (true = true ↔ (⟨"a", "r", 100000⟩ : WhoopTokens).expires_at - 0 < 5 * 60 * 1000) :=
  ⟨(request_refresh_iff ⟨"a", "r", 600000⟩ 0 none).1 (by decide),
    (request_refresh_iff ⟨"a", "r", 100000⟩ 0 none).2.1 (by decide) rfl,
    (request_refresh_iff ⟨"a", "r", 100000⟩ 0 (some ⟨"b", "r2", 999999⟩)).2.2.1
      ⟨"b", "r2", 999999⟩ (by decide) rfl,
    (request_refresh_iff ⟨"a", "r", 100000⟩ 0 (some ⟨"b", "r2", 999999⟩)).2.2.2
      ⟨"b", "r2", 999999⟩ true (by decide)⟩

theorem dayMs_pos : (0 : ℤ) < dayMs := by
  rw [dayMs]
  norm_num

theorem dateOf_mono {a b : ℤ} (h : a ≤ b) : dateOf a ≤ dateOf b :=
  Int.ediv_le_ediv dayMs_pos h

/-- C5 (amended): every row returned by a trend query has a non-null
primary score and a date at or after the `now - days` cutoff, and the
results are ordered descending by date; the queries impose no upper bound,
so the inclusive-window upper end of the original claim does not hold
(see the counterexample). -/
theorem trend_queries_filter_and_order (now days : ℤ) (db : WhoopDb) :
    (∀ o ∈ getRecoveryTrends now days db.recovery,
      o.recovery_score.isSome = true ∧ dateOf (trendCutoff now days) ≤ o.date)
    ∧ (getRecoveryTrends now days db.recovery).Pairwise (fun a b => b.date ≤ a.date)
    ∧ (∀ o ∈ getSleepTrends now days db.sleep,
      o.performance.isSome = true ∧ dateOf (trendCutoff now days) ≤ o.date)
    ∧ (getSleepTrends now days db.sleep).Pairwise (fun a b => b.date ≤ a.date)
    ∧ (∀ o ∈ getStrainTrends now days db.cycles,
      o.strain.isSome = true ∧ dateOf (trendCutoff now days) ≤ o.date)
    ∧ (getStrainTrends now days db.cycles).Pairwise (fun a b => b.date ≤ a.date) := by
  refine ⟨?_, ?_, ?_, ?_, ?_, ?_⟩
  · intro o ho
    rw [getRecoveryTrends] at ho
    rcases List.mem_map.mp ho with ⟨r, hr, rfl⟩
    have hr2 := (mem_sortDescBy _ _ _).mp hr
    have hp := (List.mem_filter.mp hr2).2
    rw [Bool.and_eq_true, decide_eq_true_eq] at hp
    exact ⟨hp.1, dateOf_mono hp.2⟩
  · rw [getRecoveryTrends]
    exact (pairwise_sortDescBy _ _).map _ (fun a b hab => dateOf_mono hab)
  · intro o ho
    rw [getSleepTrends] at ho
    rcases List.mem_map.mp ho with ⟨r, hr, rfl⟩
    have hr2 := (mem_sortDescBy _ _ _).mp hr
    have hp := (List.mem_filter.mp hr2).2
    rw [Bool.and_eq_true, Bool.and_eq_true, decide_eq_true_eq] at hp
    exact ⟨hp.1.2, dateOf_mono (decide_eq_true_eq.mp hp.2)⟩
  · rw [getSleepTrends]
    exact (pairwise_sortDescBy _ _).map _ (fun a b hab => dateOf_mono hab)
  · intro o ho
    rw [getStrainTrends] at ho
    rcases List.mem_map.mp ho with ⟨r, hr, rfl⟩
    have hr2 := (mem_sortDescBy _ _ _).mp hr
    have hp := (List.mem_filter.mp hr2).2
    rw [Bool.and_eq_true, decide_eq_true_eq] at hp
    exact ⟨hp.1, dateOf_mono hp.2⟩
  · rw [getStrainTrends]
    exact (pairwise_sortDescBy _ _).map _ (fun a b hab => dateOf_mono hab)

/-- A recovery row whose `created_at` lies one day in the future of the
query instant `now = 0`. -/
def futureRecoveryRow : RecoveryRow :=
  ⟨1, 7, "sl1", dayMs, "SCORED", some 50, some 60, some 30, none, none⟩

/-- C5 counterexample: `getRecoveryTrends` has no upper time bound, so a
stored row timestamped after `now` (here one full day after) is returned —
the original inclusive-window `[now - days, now]` claim is false. -/
theorem trend_queries_upper_bound_counterexample :
    (0 : ℤ) < futureRecoveryRow.created_at
    ∧ getRecoveryTrends 0 7 [futureRecoveryRow]
      = [⟨1, some 50, some 30, some 60⟩] := by
  constructor
  · decide
  · rfl

/-- C6: `syncDays(days)` fetches the four resource kinds over the window
`[now - days, now]`, upserts each non-empty result set (an empty result
for one kind leaves only that kind's table untouched and never blocks the
others), updates the sync state with the date-only window boundaries, and
returns per-kind counts equal to the number of records fetched. -/
theorem syncDays_spec (env : SyncEnv) (now days : ℤ) (db : WhoopDb) :
    (syncDays env now days db).stats =
      ⟨(env.getAllCycles (now - days * dayMs) now).length,
        (env.getAllRecoveries (now - days * dayMs) now).length,
        (env.getAllSleeps (now - days * dayMs) now).length,
        (env.getAllWorkouts (now - days * dayMs) now).length⟩
    ∧ (syncDays env now days db).window = (now - days * dayMs, now)
    ∧ (syncDays env now days db).db.syncState =
        updateSyncState now (env.isoDate (now - days * dayMs)) (env.isoDate now)
          db.syncState
    ∧ (env.getAllCycles (now - days * dayMs) now ≠ [] →
        (syncDays env now days db).db.cycles =
          upsertCycles db.cycles (env.getAllCycles (now - days * dayMs) now))
    ∧ (env.getAllCycles (now - days * dayMs) now = [] →
        (syncDays env now days db).db.cycles = db.cycles)
    ∧ (env.getAllRecoveries (now - days * dayMs) now ≠ [] →
        (syncDays env now days db).db.recovery =
          upsertRecoveries db.recovery (env.getAllRecoveries (now - days * dayMs) now))
    ∧ (env.getAllRecoveries (now - days * dayMs) now = [] →
        (syncDays env now days db).db.recovery = db.recovery)
    ∧ (env.getAllSleeps (now - days * dayMs) now ≠ [] →
        (syncDays env now days db).db.sleep =
          upsertSleeps db.sleep (env.getAllSleeps (now - days * dayMs) now))
    ∧ (env.getAllSleeps (now - days * dayMs) now = [] →
        (syncDays env now days db).db.sleep = db.sleep)
    ∧ (env.getAllWorkouts (now - days * dayMs) now ≠ [] →
        (syncDays env now days db).db.workouts =
          upsertWorkouts db.workouts (env.getAllWorkouts (now - days * dayMs) now))
    ∧ (env.getAllWorkouts (now - days * dayMs) now = [] →
        (syncDays env now days db).db.workouts = db.workouts) := by
  refine ⟨rfl, rfl, rfl, ?_, ?_, ?_, ?_, ?_, ?_, ?_, ?_⟩ <;> intro h <;>
    show (if _ > 0 then _ else _) = _
  · rw [if_pos (List.length_pos.mpr h)]
  · rw [if_neg (by simp [h])]
  · rw [if_pos (List.length_pos.mpr h)]
  · rw [if_neg (by simp [h])]
  · rw [if_pos (List.length_pos.mpr h)]
  · rw [if_neg (by simp [h])]
  · rw [if_pos (List.length_pos.mpr h)]
  · rw [if_neg (by simp [h])]

/-- A Gateway returning one record of each kind, for instantiations. -/
def fullEnv : SyncEnv where
  getAllCycles := fun _ _ => [witnessCycle]
  getAllRecoveries := fun _ _ => [witnessRecovery]
  getAllSleeps := fun _ _ => [witnessSleep]
  getAllWorkouts := fun _ _ => [witnessWorkout]
  isoDate := fun _ => "1970-01-01"

theorem syncDays_spec_witness :
    ((syncDays fullEnv 0 90 emptyDb).db.cycles
      = upsertCycles emptyDb.cycles [witnessCycle])
    ∧ ((syncDays trivialEnv 0 90 emptyDb).db.cycles = emptyDb.cycles)
    ∧ ((syncDays fullEnv 0 90 emptyDb).db.recovery
      = upsertRecoveries emptyDb.recovery [witnessRecovery])
    ∧ ((syncDays trivialEnv 0 90 emptyDb).db.recovery = emptyDb.recovery)
    ∧ ((syncDays fullEnv 0 90 emptyDb).db.sleep
      = upsertSleeps emptyDb.sleep [witnessSleep])
    ∧ ((syncDays trivialEnv 0 90 emptyDb).db.sleep = emptyDb.sleep)
    ∧ ((syncDays fullEnv 0 90 emptyDb).db.workouts
      = upsertWorkouts emptyDb.workouts [witnessWorkout])
    ∧ ((syncDays trivialEnv 0 90 emptyDb).db.workouts = emptyDb.workouts)
    ∧ ((syncDays fullEnv 0 90 emptyDb).stats
      = ⟨[witnessCycle].length, [witnessRecovery].length,
          [witnessSleep].length, [witnessWorkout].length⟩) :=
  have hf := syncDays_spec fullEnv 0 90 emptyDb
  have ht := syncDays_spec trivialEnv 0 90 emptyDb
  ⟨hf.2.2.2.1 (by decide),
    ht.2.2.2.2.1 rfl,
    hf.2.2.2.2.2.1 (by decide),
    ht.2.2.2.2.2.2.1 rfl,
    hf.2.2.2.2.2.2.2.1 (by decide),
    ht.2.2.2.2.2.2.2.2.1 rfl,
    hf.2.2.2.2.2.2.2.2.2.1 (by decide),
    ht.2.2.2.2.2.2.2.2.2.2 rfl,
    hf.1⟩

/-- C7 (amended): for any AES-GCM-like cipher (16-byte IV and tag,
ciphertext empty only for the empty plaintext, authenticated decryption
inverts encryption) and any NON-EMPTY plaintext, `decrypt ∘ encrypt` is
the identity, every `encrypt` output is recognised by `isEncrypted` (so
the token load decrypts everything the token save stored), and a stored
legacy value that `isEncrypted` rejects is returned unchanged.  The
original for-every-string claim fails at the empty plaintext: its empty
ciphertext hex makes the stored value end in `:` and `decrypt` throws
`Invalid encrypted data format` (see the counterexample). -/
theorem encrypt_decrypt_roundtrip (c : GcmCipher) (iv : List Byte) (pt : List Char)
    (hiv : iv.length = 16)
    (htag : (c.tag iv pt).length = 16)
    (henc : pt ≠ [] → c.enc iv pt ≠ [])
    (hdec : c.dec iv (c.tag iv pt) (c.enc iv pt) = some pt) :
    (pt ≠ [] → decrypt c (encrypt c iv pt) = .ok pt)
    ∧ isEncrypted (encrypt c iv pt) = true
    ∧ (pt ≠ [] → loadStoredToken c (encrypt c iv pt) = .ok pt)
    ∧ (∀ s : List Char, isEncrypted s = false → loadStoredToken c s = .ok s) := by
  have hiv' : iv ≠ [] := by
    intro hn
    rw [hn] at hiv
    cases hiv
  have htag' : c.tag iv pt ≠ [] := by
    intro hn
    rw [hn] at htag
    cases htag
  refine ⟨?_, isEncrypted_encrypt c iv pt hiv, ?_, ?_⟩
  · intro hpt
    exact decrypt_encrypt c iv pt hiv' htag' (henc hpt) hdec
  · intro hpt
    rw [loadStoredToken, if_pos (isEncrypted_encrypt c iv pt hiv)]
    exact decrypt_encrypt c iv pt hiv' htag' (henc hpt) hdec
  · intro s hs
    rw [loadStoredToken, if_neg (by simp [hs])]

/-- A concrete stand-in for the keyed AES-256-GCM primitive: byte-codes
the text, uses a constant 16-byte tag, and decodes on decryption.  It is
length-preserving and self-inverse like GCM. -/
def witnessCipher : GcmCipher where
  enc := fun _ t => t.map (fun ch => (⟨ch.toNat % 256, Nat.mod_lt _ (by norm_num)⟩ : Byte))
  tag := fun _ _ => List.replicate 16 ⟨0, by norm_num⟩
  dec := fun _ _ ct => some (ct.map (fun b => Char.ofNat b.val))

/-- The 16-byte IV used in concrete instantiations. -/
def witnessIv : List Byte := List.replicate 16 ⟨0, by norm_num⟩

theorem encrypt_decrypt_roundtrip_witness :
    decrypt witnessCipher (encrypt witnessCipher witnessIv ['a', 'b', 'c'])
      = .ok ['a', 'b', 'c']
    ∧ isEncrypted (encrypt witnessCipher witnessIv ['a', 'b', 'c']) = true
    ∧ loadStoredToken witnessCipher (encrypt witnessCipher witnessIv ['a', 'b', 'c'])
      = .ok ['a', 'b', 'c']
    ∧ loadStoredToken witnessCipher ['p', 'l', 'a', 'i', 'n']
      = .ok ['p', 'l', 'a', 'i', 'n'] :=
  have h := encrypt_decrypt_roundtrip witnessCipher witnessIv ['a', 'b', 'c']
    (by decide) (by decide) (fun _ => by decide) (by decide)
  ⟨h.1 (by decide), h.2.1, h.2.2.1 (by decide),
    h.2.2.2 ['p', 'l', 'a', 'i', 'n'] (by decide)⟩

/-- C7 counterexample: at the empty plaintext the cipher itself roundtrips
(`dec (tag) (enc "") = some ""`, as AES-GCM does: the ciphertext of `""`
is `""`), yet `decrypt (encrypt "")` throws the format error instead of
returning `""` — `decrypt(encrypt(s)) = s` is false for `s = ""`. -/
theorem encrypt_decrypt_empty_counterexample :
    witnessCipher.dec witnessIv (witnessCipher.tag witnessIv [])
      (witnessCipher.enc witnessIv []) = some []
    ∧ decrypt witnessCipher (encrypt witnessCipher witnessIv [])
      = .error "Invalid encrypted data format" := by
  exact ⟨rfl, rfl⟩

/-- C8: the effective `days` value a trend tool passes to the store query
always lies in `[1, 90]`; it is 14 when the argument is absent or invalid
(`NaN`, unparsable, or below 1) and `min(days, 90)` otherwise. -/
theorem validateDays_clamps (v : DaysArg) :
    (1 ≤ validateDays v ∧ validateDays v ≤ 90)
    ∧ (v = .absent → validateDays v = 14)
    ∧ (v = .nan → validateDays v = 14)
    ∧ (v = .other none → validateDays v = 14)
    ∧ (∀ q : ℚ, v = .num q → q < 1 → validateDays v = 14)
    ∧ (∀ q : ℚ, v = .num q → 1 ≤ q → validateDays v = min q 90)
    ∧ (∀ n : ℤ, v = .other (some n) → (n : ℚ) < 1 → validateDays v = 14)
    ∧ (∀ n : ℤ, v = .other (some n) → 1 ≤ (n : ℚ) → validateDays v = min (n : ℚ) 90) := by
  refine ⟨?_, ?_, ?_, ?_, ?_, ?_, ?_, ?_⟩
  · cases v with
    | absent => constructor <;> norm_num [validateDays]
    | nan => constructor <;> norm_num [validateDays]
    | num q =>
        rw [validateDays]
        split_ifs with h
        · constructor <;> norm_num
        · exact ⟨le_min (not_lt.mp h) (by norm_num), min_le_right q 90⟩
    | other p =>
        cases p with
        | none => constructor <;> norm_num [validateDays]
        | some n =>
            rw [validateDays]
            split_ifs with h
            · constructor <;> norm_num
            · exact ⟨le_min (not_lt.mp h) (by norm_num), min_le_right _ 90⟩
  · intro h
    rw [h, validateDays]
  · intro h
    rw [h, validateDays]
  · intro h
    rw [h, validateDays]
  · intro q hv h
    rw [hv, validateDays, if_pos h]
  · intro q hv h
    rw [hv, validateDays, if_neg (not_lt.mpr h)]
  · intro n hv h
    rw [hv, validateDays, if_pos h]
  · intro n hv h
    rw [hv, validateDays, if_neg (not_lt.mpr h)]

theorem validateDays_clamps_witness :
    (1 ≤ validateDays (.num 200) ∧ validateDays (.num 200) ≤ 90)
    ∧ validateDays .absent = 14
    ∧ validateDays .nan = 14
    ∧ validateDays (.other none) = 14
    ∧ validateDays (.num 0) = 14
    ∧ validateDays (.num 200) = min 200 90
    ∧ validateDays (.other (some (-3))) = 14
    ∧ validateDays (.other (some 30)) = min ((30 : ℤ) : ℚ) 90 :=
  ⟨(validateDays_clamps (.num 200)).1,
    (validateDays_clamps .absent).2.1 rfl,
    (validateDays_clamps .nan).2.2.1 rfl,
    (validateDays_clamps (.other none)).2.2.2.1 rfl,
    (validateDays_clamps (.num 0)).2.2.2.2.1 0 rfl (by norm_num),
    (validateDays_clamps (.num 200)).2.2.2.2.2.1 200 rfl (by norm_num),
    (validateDays_clamps (.other (some (-3)))).2.2.2.2.2.2.1 (-3) rfl (by norm_num),
    (validateDays_clamps (.other (some 30))).2.2.2.2.2.2.2 30 rfl (by norm_num)⟩

/-- C9: an error raised by the opportunistic `smartSync` in front of a
data-query tool is swallowed — the response is the one rendered from the
cached store, identical to the response after a successful sync and not
flagged as an error — while an error raised inside the explicit
`sync_data` tool escapes to the outer catch and is surfaced as an
`isError` response instead of a normal result. -/
theorem sync_error_propagation (e : String) (render : String) (ok : SmartSyncOut)
    (sdo : Except String SyncStats) (sso : Except String SmartSyncOut) :
    handleDataTool true (.error e) render = ⟨render, false⟩
    ∧ handleDataTool true (.error e) render = handleDataTool true (.ok ok) render
    ∧ handleSyncData true true (.error e) sso = ⟨"Error: " ++ e, true⟩
    ∧ handleSyncData true false sdo (.error e) = ⟨"Error: " ++ e, true⟩
    ∧ (handleSyncData true true (.error e) sso).isError = true :=
  ⟨rfl, rfl, rfl, rfl, rfl⟩

/-- A non-nap sleep row inside the window whose `sleep_performance` is
present but whose `total_in_bed_milli` is NULL. -/
def mixedNullSleepRow : SleepRow :=
  ⟨"sl9", 7, none, 0, 100, 0, "SCORED", none, some 1800000, none, none, none,
    some 85, some 90, none, none, none, none, none⟩

/-- C10: the NULL filter of `getSleepTrends` applies only to the primary
score `sleep_performance`; a row whose `total_in_bed_milli` is NULL is
still returned, with a NULL `total_sleep_hours` (SQL NULL arithmetic) —
neither excluded nor zero-filled. -/
theorem sleep_trend_null_hours :
    getSleepTrends 0 7 [mixedNullSleepRow] = [⟨0, none, some 85, some 90⟩]
    ∧ mixedNullSleepRow.sleep_performance.isSome = true
    ∧ mixedNullSleepRow.total_in_bed_milli = none :=
  ⟨rfl, rfl, rfl⟩

/-- A scored cycle row with a NULL `kilojoule` (so the calories column of
the strain trend is NULL for it). -/
def strainOnlyCycleRow : CycleRow :=
  ⟨2, 7, 0, none, "SCORED", some 10, none, none, none⟩

/-- A store with one row in each of the three trend-relevant tables. -/
def dbTrend : WhoopDb :=
  ⟨[strainOnlyCycleRow], [futureRecoveryRow], [mixedNullSleepRow], [], emptySyncState⟩

theorem trend_queries_filter_and_order_witness :
    ((⟨1, some 50, some 30, some 60⟩ : RecoveryTrendRow).recovery_score.isSome = true
      ∧ dateOf (trendCutoff 0 7) ≤ (⟨1, some 50, some 30, some 60⟩ : RecoveryTrendRow).date)
    ∧ ((⟨0, none, some 85, some 90⟩ : SleepTrendRow).performance.isSome = true
      ∧ dateOf (trendCutoff 0 7) ≤ (⟨0, none, some 85, some 90⟩ : SleepTrendRow).date)
    ∧ ((⟨0, some 10, none⟩ : StrainTrendRow).strain.isSome = true
      ∧ dateOf (trendCutoff 0 7) ≤ (⟨0, some 10, none⟩ : StrainTrendRow).date)
    ∧ (getRecoveryTrends 0 7 dbTrend.recovery).Pairwise (fun a b => b.date ≤ a.date) :=
  have h := trend_queries_filter_and_order 0 7 dbTrend
  ⟨h.1 ⟨1, some 50, some 30, some 60⟩ (by decide),
    h.2.2.1 ⟨0, none, some 85, some 90⟩ (by decide),
    h.2.2.2.2.1 ⟨0, some 10, none⟩ (by decide),
    h.2.1⟩
